import Mathlib

/-!
# Verification of the zentime pomodoro timer daemon

A shallow embedding of the zentime sources (timer engine, pomodoro state
machine, wire codec, server broker and client connection logic) together
with theorems settling the specification claims about them.

Machine integers (`u64` rounds, `u16` postpone counters) are modelled as
`Nat`: every increment performed by the code is by one from values that
stay far below the wrap-around bound on any reachable execution considered
here (the postpone counter is provably bounded by the `u16` postpone
limit), so exact natural arithmetic is the faithful translation.
-/

namespace Zentime

/-! ## Pomodoro timer configuration

From `src/timer/src/config.rs` (`PomodoroTimerConfig`).  Durations are in
seconds; `postpone_limit = 0` disables postponing. -/

structure PomodoroTimerConfig where
  timer : Nat
  minor_break : Nat
  major_break : Nat
  intervals : Nat
  postpone_limit : Nat
  postpone_timer : Nat
  deriving Repr, DecidableEq

/-- Default configuration from `impl Default for PomodoroTimerConfig`. -/
def PomodoroTimerConfig.default : PomodoroTimerConfig :=
  { timer := 1500, minor_break := 300, major_break := 900
    intervals := 4, postpone_limit := 0, postpone_timer := 300 }

/-! ## Pomodoro shared state

From `src/timer/src/pomodoro_timer.rs` (`PomodoroTimerState`): the state
carried from each pomodoro timer instance to the next. -/

structure PomodoroTimerState where
  round : Nat
  postponed_count : Nat
  deriving Repr, DecidableEq

/-- The typestate markers of `PomodoroTimer<S>`:
`Interval`, `ShortBreak`, `LongBreak`, `PostponedShortBreak`,
`PostponedLongBreak` from `src/timer/src/pomodoro_timer.rs`. -/
inductive PomodoroPhase where
  | interval
  | shortBreak
  | longBreak
  | postponedShortBreak
  | postponedLongBreak
  deriving Repr, DecidableEq

def PomodoroPhase.isBreak : PomodoroPhase → Bool
  | .shortBreak | .longBreak => true
  | _ => false

def PomodoroPhase.isPostponed : PomodoroPhase → Bool
  | .postponedShortBreak | .postponedLongBreak => true
  | _ => false

/-- A full configuration of the pomodoro state machine: which typestate the
current `PomodoroTimer` instance carries plus its shared state. -/
structure PomodoroMachine where
  phase : PomodoroPhase
  state : PomodoroTimerState
  deriving Repr, DecidableEq

/-- `PomodoroTimer::<Interval>::new` initializes
`round = 1, postponed_count = 0` in the `Interval` typestate. -/
def PomodoroMachine.initial : PomodoroMachine :=
  { phase := .interval, state := { round := 1, postponed_count := 0 } }

/-- `PomodoroTimer::can_postpone` from `src/timer/src/pomodoro_timer.rs`:
`config.postpone_limit > 0 && state.postponed_count < config.postpone_limit`. -/
def can_postpone (config : PomodoroTimerConfig) (state : PomodoroTimerState) : Bool :=
  decide (config.postpone_limit > 0) && decide (state.postponed_count < config.postpone_limit)

/-- Events driving the pomodoro state machine, as observed at the
boundary between the pomodoro layer and its inner `Timer` run:

* `timerEnd`: the inner timer run returned, either because it counted down
  to zero naturally or because a `Skip` was translated to `TimerAction::End`
  (both make the break/interval `init` fall through to `Self::next`);
* `postponeBreak`: a `PomodoroTimerAction::PostponeBreak` delivered by the
  tick callback;
* `reset`: a `PomodoroTimerAction::ResetTimer`, handled by
  `PomodoroTimer::handle_action` via `PomodoroTimer::reset`. -/
inductive PomodoroEvent where
  | timerEnd
  | postponeBreak
  | reset
  deriving Repr, DecidableEq

/-- One transition of the pomodoro state machine, translated from
`src/timer/src/pomodoro_timer.rs`:

* `Interval` + end (`PomodoroTimer::<Interval>::init`/`next`): compute
  `is_major_break = round % config.intervals == 0`, zero `postponed_count`
  and move to `LongBreak`/`ShortBreak` accordingly.  (With
  `config.intervals = 0` the Rust `%` would panic and halt the machine; the
  Lean convention `n % 0 = n` then selects a branch, which touches neither
  counter.)
* `ShortBreak`/`LongBreak` + end (`init`/`next`): move to `Interval` with
  `round + 1`, `postponed_count` carried over unchanged.
* `ShortBreak`/`LongBreak` + `PostponeBreak` (tick closure): if
  `can_postpone`, move to the postponed variant with `postponed_count + 1`;
  otherwise `return None` — a no-op.
* `PostponedShortBreak`/`PostponedLongBreak` + end: back to the break with
  the shared state unchanged.
* `PostponeBreak` in `Interval` or a postponed state falls through the
  `_ => None` arm of `handle_action` — a no-op.
* `reset` in any state: `PomodoroTimer::reset` builds a fresh
  `PomodoroTimer::<Interval>::new`, i.e. `round = 1, postponed_count = 0`. -/
def PomodoroMachine.step (config : PomodoroTimerConfig) (m : PomodoroMachine) :
    PomodoroEvent → PomodoroMachine
  | .reset => PomodoroMachine.initial
  | .timerEnd =>
    match m.phase with
    | .interval =>
      let is_major_break := m.state.round % config.intervals == 0
      { phase := if is_major_break then .longBreak else .shortBreak
        state := { m.state with postponed_count := 0 } }
    | .shortBreak =>
      { phase := .interval
        state := { round := m.state.round + 1
                   postponed_count := m.state.postponed_count } }
    | .longBreak =>
      { phase := .interval
        state := { round := m.state.round + 1
                   postponed_count := m.state.postponed_count } }
    | .postponedShortBreak => { m with phase := .shortBreak }
    | .postponedLongBreak => { m with phase := .longBreak }
  | .postponeBreak =>
    match m.phase with
    | .shortBreak =>
      if can_postpone config m.state then
        { phase := .postponedShortBreak
          state := { m.state with postponed_count := m.state.postponed_count + 1 } }
      else m
    | .longBreak =>
      if can_postpone config m.state then
        { phase := .postponedLongBreak
          state := { m.state with postponed_count := m.state.postponed_count + 1 } }
      else m
    | _ => m

/-- Run the machine from the initial state over a finite event sequence. -/
def PomodoroMachine.run (config : PomodoroTimerConfig)
    (events : List PomodoroEvent) : PomodoroMachine :=
  events.foldl (fun m e => m.step config e) PomodoroMachine.initial

/-! ## Timer engine

From `src/timer/src/timer.rs`.  Instants are modelled as natural numbers
of time units; `Instant` subtraction becomes truncated `Nat` subtraction
(the Rust `Instant - Instant` is only evaluated on the non-negative side
in the paths proved about). -/

/-- `Paused { remaining_time }` from `src/timer/src/timer.rs`. -/
structure Paused where
  remaining_time : Nat
  deriving Repr, DecidableEq

/-- `Running { target_time }` from `src/timer/src/timer.rs`. -/
structure Running where
  target_time : Nat
  deriving Repr, DecidableEq

/-- `Timer::<Running>::pause`: builds the paused state with
`remaining_time = self.internal_state.target_time - Instant::now()`,
where `now` is the instant at which the pause is processed. -/
def Running.pause (s : Running) (now : Nat) : Paused :=
  { remaining_time := s.target_time - now }

/-- `Timer::<Paused>::unpause`: builds the running state with
`target_time = Instant::now() + self.internal_state.remaining_time`. -/
def Paused.unpause (s : Paused) (now : Nat) : Running :=
  { target_time := now + s.remaining_time }

/-- The remaining time the `Timer::<Running>::start` loop computes on a
tick: `target_time - Instant::now()`. -/
def Running.remaining (s : Running) (now : Nat) : Nat :=
  s.target_time - now

/-- `TimerInputAction`, reconstructed from the exhaustive `match` arms in
`src/timer/src/timer.rs` (`None`, `PlayPause`, `Skip`, `ResetTimer`); the
enum's own declaration file is not part of this snapshot. -/
inductive TimerInputAction where
  | none
  | playPause
  | skip
  | resetTimer
  deriving Repr, DecidableEq

/-- The internal state of one `Timer` value: `Paused` or `Running`. -/
inductive TimerMode where
  | paused (s : Paused)
  | running (s : Running)
  deriving Repr, DecidableEq

/-- How a single timer run (one chain of `Timer::<Paused>::init` /
`Timer::<Running>::start` loops belonging to one logical timer) hands
control back:

* `naturalEnd`: the `Running` loop's `while target_time > now` guard
  failed, so `self.next(true)` runs;
* `skipped`: a `Skip` action caused `return self.next(false)`;
* `resetExit`: a `ResetTimer` action caused `return self.reset().init()`,
  i.e. a fresh `Timer::new` value takes over;
* `outOfInput`: the modelled tick trace is exhausted while the loops are
  still blocking on the tick callback. -/
inductive TimerExit where
  | naturalEnd
  | skipped
  | resetExit
  | outOfInput
  deriving Repr, DecidableEq

/-- One tick observation: the action the tick callback returned (`None`
in Rust's `Option` sense when the callback yielded no action) and the
amount of wall-clock time that elapsed while the callback blocked.  The
engine never sleeps itself; all pacing comes from the callback. -/
structure Tick where
  action : Option TimerInputAction
  elapsed : Nat
  deriving Repr, DecidableEq

/-- Interpreter for one timer run, translated from
`Timer::<Paused>::init` and `Timer::<Running>::start` in
`src/timer/src/timer.rs`.  It returns the exit kind together with the
number of times `(new_timer.on_interval_end)(..)` was invoked by
`Timer::next` on behalf of this run (`Timer::next` calls it exactly when
its `is_timer_end` argument is `true`, i.e. only on the `self.next(true)`
fall-through of the `Running` loop). -/
def timerRun : TimerMode → Nat → List Tick → TimerExit × Nat
  | .running s, now, ticks =>
    if s.target_time > now then
      match ticks with
      | [] => (.outOfInput, 0)
      | t :: rest =>
        let now' := now + t.elapsed
        match t.action with
        | some .playPause => timerRun (.paused (s.pause now')) now' rest
        | some .skip => (.skipped, 0)
        | some .resetTimer => (.resetExit, 0)
        | some .none => timerRun (.running s) now' rest
        | none => timerRun (.running s) now' rest
    else
      (.naturalEnd, 1)
  | .paused s, now, ticks =>
    match ticks with
    | [] => (.outOfInput, 0)
    | t :: rest =>
      let now' := now + t.elapsed
      match t.action with
      | some .playPause => timerRun (.running (s.unpause now')) now' rest
      | some .skip => (.skipped, 0)
      | some .resetTimer => (.resetExit, 0)
      | some .none => timerRun (.paused s) now' rest
      | none => timerRun (.paused s) now' rest

/-! ## ViewState emissions

Rust `String` values (the formatted time strings) are modelled by their
UTF-8 byte sequences (`List Nat`): the code never inspects their
characters, and the wire codec below serializes exactly those bytes.

Two revisions coexist in the snapshot: the monolithic
`src/timer/src/pomodoro_timer.rs` / `src/timer/src/timer.rs` (no paused
flag in any view) and the refactored `src/timer/src/pomodoro_timer/`
directory whose `state.rs` `ViewState` carries `is_paused`. -/

/-- `ViewState` from `src/timer/src/timer.rs` (the timer engine's own
view): exactly the fields `is_break`, `round`, `time`. -/
structure TimerViewState where
  is_break : Bool
  round : Nat
  time : List Nat
  deriving Repr, DecidableEq

/-- `TimerStateData` from `src/timer/src/timer.rs`. -/
structure TimerStateData where
  is_break : Bool
  round : Nat
  deriving Repr, DecidableEq

/-- The `ViewState { .. }` literal `Timer::<Paused>::init` hands to
`self.on_tick` (lines 213–217 of `src/timer/src/timer.rs`). -/
def pausedTickView (shared : TimerStateData) (time : List Nat) : TimerViewState :=
  { is_break := shared.is_break, round := shared.round, time := time }

/-- The `ViewState { .. }` literal `Timer::<Running>::start` hands to
`self.on_tick` (lines 271–275 of `src/timer/src/timer.rs`). -/
def runningTickView (shared : TimerStateData) (time : List Nat) : TimerViewState :=
  { is_break := shared.is_break, round := shared.round, time := time }

/-- `ViewState` from the monolithic `src/timer/src/pomodoro_timer.rs`
(lines 64–80): `is_break`, `is_postponed`, `postpone_count`, `round`,
`time` — and no paused field. -/
structure ViewState where
  is_break : Bool
  is_postponed : Bool
  postpone_count : Nat
  round : Nat
  time : List Nat
  deriving Repr, DecidableEq

/-- The `ViewState` literal built in the tick closure of
`PomodoroTimer::<ShortBreak>::init` (and identically for `LongBreak`
with the same field values). -/
def breakTickView (state : PomodoroTimerState) (current_time : List Nat) : ViewState :=
  { is_break := true, is_postponed := false
    postpone_count := state.postponed_count, round := state.round
    time := current_time }

/-- The `ViewState` literal built in the tick closure of
`PomodoroTimer::<Interval>::init`. -/
def intervalTickView (state : PomodoroTimerState) (current_time : List Nat) : ViewState :=
  { is_break := false, is_postponed := false
    postpone_count := state.postponed_count, round := state.round
    time := current_time }

/-- `ViewState` from `src/timer/src/pomodoro_timer/state.rs` (lines
23–42, the refactored revision): the same fields plus `is_paused`. -/
structure ViewStateR where
  is_break : Bool
  is_postponed : Bool
  postpone_count : Nat
  round : Nat
  time : List Nat
  is_paused : Bool
  deriving Repr, DecidableEq

/-- Modelled from the spec: `TimerStatus`, the argument the refactored
timer hands to `TimerTickHandler::call`.  The refactored `timer.rs` is
absent from the snapshot; from its uses in
`src/timer/src/pomodoro_timer/short_break.rs` and the spec's "remaining
time string + paused flag" wording it carries the formatted current time
and whether the timer is paused. -/
structure TimerStatus where
  current_time : List Nat
  is_paused : Bool
  deriving Repr, DecidableEq

/-- The `ViewState` literal built in
`ShortBreakTickHandler::call` (`src/timer/src/pomodoro_timer/short_break.rs`):
forwards `status.is_paused` into the view. -/
def shortBreakTickViewR (state : PomodoroTimerState) (status : TimerStatus) : ViewStateR :=
  { is_break := true, is_postponed := false
    postpone_count := state.postponed_count, round := state.round
    time := status.current_time, is_paused := status.is_paused }

/-! ## Wire protocol codec

From `src/src/ipc.rs`.  Bytes are modelled as natural numbers below 256;
a byte stream is a `List Nat`.  The framing (`send_ipc_message` /
`recv_ipc_message`) is translated from the source.  The payload encoding
is performed in the source by the external `rmp_serde` library; it is
modelled here from the spec: "Payload encoding: MessagePack of a
tagged-union message", following the published MessagePack format —
unsigned integers in their shortest form, booleans as `0xc2`/`0xc3`,
strings as `str` with a length header, structs as arrays of their fields
in declaration order, unit enum variants as their variant index and
newtype variants as a single-entry map from variant index to payload. -/

/-- `k` big-endian bytes of `n` (MessagePack multi-byte integers are
big-endian). -/
def beBytes : Nat → Nat → List Nat
  | 0, _ => []
  | k + 1, n => n / 256 ^ k :: beBytes k (n % 256 ^ k)

/-- Read `k` big-endian bytes off the front of a stream. -/
def readBE : Nat → List Nat → Option (Nat × List Nat)
  | 0, s => some (0, s)
  | k + 1, b :: rest => (readBE k rest).map (fun p => (b * 256 ^ k + p.1, p.2))
  | _ + 1, [] => none

/-- MessagePack encoding of an unsigned integer, shortest form
(positive fixint / `uint8` / `uint16` / `uint32` / `uint64`); values
outside the `u64` range are not representable. -/
def msgpackUInt (n : Nat) : Option (List Nat) :=
  if n < 128 then some [n]
  else if n < 256 then some [204, n]
  else if n < 65536 then some (205 :: beBytes 2 n)
  else if n < 4294967296 then some (206 :: beBytes 4 n)
  else if n < 18446744073709551616 then some (207 :: beBytes 8 n)
  else none

/-- MessagePack decoding of an unsigned integer (any of the forms
`msgpackUInt` can produce). -/
def parseUInt : List Nat → Option (Nat × List Nat)
  | [] => none
  | b :: rest =>
    if b < 128 then some (b, rest)
    else if b = 204 then
      match rest with
      | v :: r => some (v, r)
      | [] => none
    else if b = 205 then readBE 2 rest
    else if b = 206 then readBE 4 rest
    else if b = 207 then readBE 8 rest
    else none

/-- MessagePack encoding of a boolean. -/
def msgpackBool (b : Bool) : List Nat :=
  [if b then 195 else 194]

/-- MessagePack decoding of a boolean. -/
def parseBool : List Nat → Option (Bool × List Nat)
  | 194 :: rest => some (false, rest)
  | 195 :: rest => some (true, rest)
  | _ => none

/-- Take exactly `k` bytes off the front of a stream. -/
def readN (k : Nat) (s : List Nat) : Option (List Nat × List Nat) :=
  if k ≤ s.length then some (s.take k, s.drop k) else none

/-- MessagePack encoding of a string given by its UTF-8 bytes
(`fixstr` / `str8` / `str16` / `str32`). -/
def msgpackStr (bs : List Nat) : Option (List Nat) :=
  if bs.length < 32 then some ((160 + bs.length) :: bs)
  else if bs.length < 256 then some (217 :: bs.length :: bs)
  else if bs.length < 65536 then some (218 :: beBytes 2 bs.length ++ bs)
  else if bs.length < 4294967296 then some (219 :: beBytes 4 bs.length ++ bs)
  else none

/-- MessagePack decoding of a string (any of the forms `msgpackStr` can
produce). -/
def parseStr : List Nat → Option (List Nat × List Nat)
  | [] => none
  | b :: rest =>
    if 160 ≤ b ∧ b ≤ 191 then readN (b - 160) rest
    else if b = 217 then
      match rest with
      | l :: r => readN l r
      | [] => none
    else if b = 218 then
      (readBE 2 rest).bind fun p => readN p.1 p.2
    else if b = 219 then
      (readBE 4 rest).bind fun p => readN p.1 p.2
    else none

/-- MessagePack encoding of a `ViewState`: a five-element array of its
fields in declaration order. -/
def encodeViewState (v : ViewState) : Option (List Nat) :=
  match msgpackUInt v.postpone_count, msgpackUInt v.round, msgpackStr v.time with
  | some c, some r, some t =>
    some (149 :: msgpackBool v.is_break ++ msgpackBool v.is_postponed ++ c ++ r ++ t)
  | _, _, _ => none

/-- MessagePack decoding of a `ViewState`. -/
def parseViewState (s : List Nat) : Option (ViewState × List Nat) :=
  match s with
  | 149 :: rest =>
    (parseBool rest).bind fun p1 =>
      (parseBool p1.2).bind fun p2 =>
        (parseUInt p2.2).bind fun p3 =>
          (parseUInt p3.2).bind fun p4 =>
            (parseStr p4.2).bind fun p5 =>
              some ({ is_break := p1.1, is_postponed := p2.1, postpone_count := p3.1
                      round := p4.1, time := p5.1 }, p5.2)
  | _ => none

/-- `ClientToServerMsg` from `src/src/ipc.rs`:
`Quit | Detach | PlayPause | Skip | Reset | Sync`. -/
inductive ClientToServerMsg where
  | quit
  | detach
  | playPause
  | skip
  | reset
  | sync
  deriving Repr, DecidableEq

/-- `ServerToClientMsg`: `Timer(ViewState)` from `src/src/ipc.rs`; the
`Quit` variant is the one sent by `src/src/server/start.rs`
(`handle_connection_synchronization`) and listed by the spec's message
table — the snapshot's `ipc.rs` revision declares only `Timer`. -/
inductive ServerToClientMsg where
  | timer (v : ViewState)
  | quit
  deriving Repr, DecidableEq

/-- Serde variant index of a `ClientToServerMsg` (declaration order). -/
def ClientToServerMsg.index : ClientToServerMsg → Nat
  | .quit => 0
  | .detach => 1
  | .playPause => 2
  | .skip => 3
  | .reset => 4
  | .sync => 5

/-- MessagePack encoding of a `ClientToServerMsg`: all variants are unit
variants, encoded as their variant index. -/
def encodeClientToServerMsg (m : ClientToServerMsg) : Option (List Nat) :=
  msgpackUInt m.index

/-- MessagePack decoding of a `ClientToServerMsg`. -/
def parseClientToServerMsg (s : List Nat) : Option ClientToServerMsg :=
  match parseUInt s with
  | some (0, _) => some .quit
  | some (1, _) => some .detach
  | some (2, _) => some .playPause
  | some (3, _) => some .skip
  | some (4, _) => some .reset
  | some (5, _) => some .sync
  | _ => none

/-- MessagePack encoding of a `ServerToClientMsg`: the newtype variant
`Timer(v)` as the single-entry map `{0: v}`, the unit variant `Quit` as
its index `1`. -/
def encodeServerToClientMsg (m : ServerToClientMsg) : Option (List Nat) :=
  match m with
  | .timer v =>
    match encodeViewState v with
    | some pv => some (129 :: 0 :: pv)
    | none => none
  | .quit => msgpackUInt 1

/-- MessagePack decoding of a `ServerToClientMsg`. -/
def parseServerToClientMsg (s : List Nat) : Option ServerToClientMsg :=
  match s with
  | 129 :: 0 :: rest =>
    (parseViewState rest).bind fun p => some (.timer p.1)
  | _ =>
    match parseUInt s with
    | some (1, _) => some .quit
    | _ => none

/-- The four little-endian bytes of `u32::to_le_bytes`. -/
def leBytes4 (n : Nat) : List Nat :=
  [n % 256, n / 256 % 256, n / 65536 % 256, n / 16777216 % 256]

/-- `u32::from_le_bytes`. -/
def leDecode4 (b0 b1 b2 b3 : Nat) : Nat :=
  b0 + 256 * b1 + 65536 * b2 + 16777216 * b3

/-- `InterProcessCommunication::send_ipc_message` from `src/src/ipc.rs`,
parametrized by the payload encoder: MessagePack-encode the message
(failing with `Could not encode` if the value is unrepresentable), cast
the payload length to `u32` (failing with `Could not cast msg length to
u32` if it exceeds `u32::MAX`), then write the 4-byte little-endian
length followed by the payload.  The result is the byte stream written,
or `none` if the call fails before writing. -/
def send_ipc_message (encode : α → Option (List Nat)) (msg : α) : Option (List Nat) :=
  match encode msg with
  | none => none
  | some encoded_msg =>
    if encoded_msg.length < 4294967296 then
      some (leBytes4 encoded_msg.length ++ encoded_msg)
    else none

/-- Possible outcomes of `recv_ipc_message`: a decoded message, an
`anyhow` error return (failed length read / `UnexpectedEof` mid-frame /
other read error / decode failure), or a panic. -/
inductive RecvResult (α : Type) where
  | ok (msg : α)
  | ioError
  | decodeError
  | panicked
  deriving Repr, DecidableEq

/-- `InterProcessCommunication::recv_ipc_message` from `src/src/ipc.rs`,
parametrized by the payload decoder:

* `read_exact` of 4 bytes → `Could not read msg length` error if the
  stream closes first; `msg_length = u32::from_le_bytes(buffer)`;
* `let mut buffer = [0_u8; 1024]` and then
  `&mut buffer[0..msg_length]` — for `msg_length > 1024` this slice
  indexes the fixed 1024-byte array out of bounds and panics before any
  read happens;
* `read_exact` of `msg_length` bytes → `UnexpectedEof`/read error if the
  stream closes first;
* `rmp_serde::from_slice` on the filled prefix → `Could not decode msg`
  on failure. -/
def recv_ipc_message (dec : List Nat → Option α) (stream : List Nat) : RecvResult α :=
  match stream with
  | b0 :: b1 :: b2 :: b3 :: rest =>
    let msg_length := leDecode4 b0 b1 b2 b3
    if 1024 < msg_length then .panicked
    else if rest.length < msg_length then .ioError
    else
      match dec (rest.take msg_length) with
      | some msg => .ok msg
      | none => .decodeError
  | _ => .ioError

/-! ## Server broker

From `src/src/server/start.rs`. -/

/-- `ConnectionSynchronizationAction` from `src/src/server/start.rs`:
the internal shutdown fan-out signal. -/
inductive ConnectionSynchronizationAction where
  | quit
  deriving Repr, DecidableEq

/-- The externally visible effect of one call of
`handle_connection_synchronization` on one session: how many
`ServerToClientMsg::Quit` frames it writes to its own client, and whether
it then terminates the whole server process (`process::exit(0)`). -/
structure SyncEffect where
  quit_messages_sent : Nat
  exits_process : Bool
  deriving Repr, DecidableEq

/-- `handle_connection_synchronization` from `src/src/server/start.rs`
(lines 196–209): on `Quit`, send exactly one `ServerToClientMsg::Quit`
to this session's client, then `process::exit(0)`. -/
def handle_connection_synchronization :
    ConnectionSynchronizationAction → SyncEffect
  | .quit => { quit_messages_sent := 1, exits_process := true }

/-- The effect of `handle_client_to_server_msg`
(`src/src/server/start.rs`, lines 211–238) on the server: publish the
shutdown signal on the connection-synchronization broadcast channel,
enqueue a timer input action on the single-consumer command queue, or
nothing.  The cited revision's `match` has arms only for `Quit` (publish
`ConnectionSynchronizationAction::Quit`), `PlayPause` and `Skip`
(enqueue); no arm of any revision publishes the shutdown signal for any
other message. -/
inductive ClientMsgEffect where
  | publishShutdown
  | sendTimerInput (a : TimerInputAction)
  | nothing
  deriving Repr, DecidableEq

def handle_client_to_server_msg : ClientToServerMsg → ClientMsgEffect
  | .quit => .publishShutdown
  | .playPause => .sendTimerInput .playPause
  | .skip => .sendTimerInput .skip
  | _ => .nothing

/-- Fan-out of a published shutdown signal to the attached sessions, in
the order the scheduler lets them process their
`connection_sync_rx.recv()` branch.  Each session that runs applies
`handle_connection_synchronization` to the `Quit` action; if that call
exits the process, no later session runs and each of them delivers zero
`Quit` messages.  Returns, per session, the number of
`ServerToClientMsg::Quit` frames delivered to its client. -/
def shutdownDeliveries : List Nat → List (Nat × Nat)
  | [] => []
  | s :: rest =>
    let eff := handle_connection_synchronization .quit
    (s, eff.quit_messages_sent) ::
      if eff.exits_process then rest.map (fun t => (t, 0))
      else shutdownDeliveries rest

/-! ## Client connection

From `src/src/client/connection.rs` (`ClientConnectionTask::spawn`). -/

/-- The connect loop of `ClientConnectionTask::spawn`
(`src/src/client/connection.rs`, lines 30–52), run for at most `fuel`
iterations over an environment `connectOk` telling, for each 1-based
attempt number, whether `LocalSocketStream::connect` succeeds:

```
let mut connection_tries = 0;
loop {
    connection_tries += 1;
    if connection_tries == 4 { send TerminalEvent::Quit("Could not connect to server", error) }
    if connect() succeeds { break connection } else { sleep(200ms) }
}
```

Returns the attempt number the loop broke out at (`none` if it is still
looping when the fuel runs out) together with the number of fatal
"could not connect" `Quit` events sent upward. -/
def clientConnectLoop (connectOk : Nat → Bool) :
    Nat → Nat → Option Nat × Nat
  | 0, _ => (none, 0)
  | fuel + 1, connection_tries =>
    let connection_tries := connection_tries + 1
    let fatal := if connection_tries = 4 then 1 else 0
    if connectOk connection_tries then (some connection_tries, fatal)
    else
      let r := clientConnectLoop connectOk fuel connection_tries
      (r.1, fatal + r.2)

/-! ## Theorems -/

/-- C2: pausing a `Running` timer with target instant `T` at instant
`t < T` stores exactly the leftover `remaining = T - t` (never the
original duration), and a later `PlayPause` at any instant `t'` resumes
`Running` with `target = t' + remaining`, so the remaining time observed
immediately after the resume equals the remaining time at the moment of
pause, however long the timer stayed paused. -/
theorem c2_pause_resume_exact_leftover (T t t' : Nat) (_h : t < T) :
    (Running.pause ⟨T⟩ t).remaining_time = T - t ∧
    (Paused.unpause (Running.pause ⟨T⟩ t) t').target_time = t' + (T - t) ∧
    Running.remaining (Paused.unpause (Running.pause ⟨T⟩ t) t') t' = T - t := by
  refine ⟨rfl, rfl, ?_⟩
  simp [Running.pause, Paused.unpause, Running.remaining]

/-- Witness for `c2_pause_resume_exact_leftover`: a timer targeting
instant 10 paused at instant 3 and resumed at instant 1000 again shows 7
remaining. -/
theorem c2_pause_resume_witness :
    (3 < 10) ∧
    ((Running.pause ⟨10⟩ 3).remaining_time = 10 - 3 ∧
      (Paused.unpause (Running.pause ⟨10⟩ 3) 1000).target_time = 1000 + (10 - 3) ∧
      Running.remaining (Paused.unpause (Running.pause ⟨10⟩ 3) 1000) 1000 = 10 - 3) :=
  ⟨by decide, c2_pause_resume_exact_leftover 10 3 1000 (by decide)⟩

/-- C4: in `ShortBreak` or `LongBreak`, `PostponeBreak` moves to the
corresponding postponed state with `postponed_count` incremented by one
and `round` unchanged if and only if
`postpone_limit > 0 && postponed_count < postpone_limit`
(`can_postpone`); otherwise it is a no-op leaving the machine — and hence
the `ViewState` emitted on the following tick — unchanged.  In
particular, with `postpone_limit = 0`, `PostponeBreak` during any break
is always a no-op. -/
theorem c4_postpone_guard (config : PomodoroTimerConfig) (st : PomodoroTimerState) :
    (can_postpone config st = true ↔
      0 < config.postpone_limit ∧ st.postponed_count < config.postpone_limit) ∧
    (PomodoroMachine.step config ⟨.shortBreak, st⟩ .postponeBreak =
      if can_postpone config st then
        ⟨.postponedShortBreak, ⟨st.round, st.postponed_count + 1⟩⟩
      else ⟨.shortBreak, st⟩) ∧
    (PomodoroMachine.step config ⟨.longBreak, st⟩ .postponeBreak =
      if can_postpone config st then
        ⟨.postponedLongBreak, ⟨st.round, st.postponed_count + 1⟩⟩
      else ⟨.longBreak, st⟩) ∧
    (can_postpone config st = false →
      ∀ time, breakTickView (PomodoroMachine.step config ⟨.shortBreak, st⟩ .postponeBreak).state time =
        breakTickView st time) ∧
    (config.postpone_limit = 0 →
      PomodoroMachine.step config ⟨.shortBreak, st⟩ .postponeBreak = ⟨.shortBreak, st⟩ ∧
      PomodoroMachine.step config ⟨.longBreak, st⟩ .postponeBreak = ⟨.longBreak, st⟩) := by
  have hiff : can_postpone config st = true ↔
      0 < config.postpone_limit ∧ st.postponed_count < config.postpone_limit := by
    simp [can_postpone]
  refine ⟨hiff, ?_, ?_, ?_, ?_⟩
  · by_cases h : can_postpone config st = true <;>
      simp [PomodoroMachine.step, h]
  · by_cases h : can_postpone config st = true <;>
      simp [PomodoroMachine.step, h]
  · intro h time
    simp [PomodoroMachine.step, h]
  · intro h
    have hfalse : can_postpone config st = false := by
      simp [can_postpone, h]
    simp [PomodoroMachine.step, hfalse]

/-- Witness for `c4_postpone_guard`: at the default configuration
(`postpone_limit = 0`) a `PostponeBreak` during a short break leaves the
machine unchanged. -/
theorem c4_postpone_guard_witness :
    PomodoroMachine.step PomodoroTimerConfig.default ⟨.shortBreak, ⟨1, 0⟩⟩ .postponeBreak =
      ⟨.shortBreak, ⟨1, 0⟩⟩ :=
  ((c4_postpone_guard PomodoroTimerConfig.default ⟨1, 0⟩).2.2.2.2 (by decide)).1

/-- A configuration with postpone limit 1 (all other fields default). -/
def c1Config : PomodoroTimerConfig :=
  { timer := 1500, minor_break := 300, major_break := 900
    intervals := 4, postpone_limit := 1, postpone_timer := 300 }

/-- C1, counterexample: with `postpone_limit = 1`, letting the first
interval end and then accepting one postponement puts the machine in
`PostponedShortBreak` with `postponed_count = 1` — a postponement is
active yet `postponed_count` is *not* strictly below the postpone limit. -/
theorem c1_postpone_limit_counterexample :
    (PomodoroMachine.run c1Config
        [PomodoroEvent.timerEnd, PomodoroEvent.postponeBreak]).phase.isPostponed = true ∧
    ¬ ((PomodoroMachine.run c1Config
        [PomodoroEvent.timerEnd, PomodoroEvent.postponeBreak]).state.postponed_count <
      c1Config.postpone_limit) := by
  decide

/-- The reachable-state invariant of the pomodoro machine:
`postponed_count` never exceeds the postpone limit, and while a
postponement is active it is at least 1. -/
theorem pomodoroMachine_step_invariant (config : PomodoroTimerConfig)
    (m : PomodoroMachine) (e : PomodoroEvent)
    (h1 : m.state.postponed_count ≤ config.postpone_limit)
    (h2 : m.phase.isPostponed = true → 1 ≤ m.state.postponed_count) :
    (m.step config e).state.postponed_count ≤ config.postpone_limit ∧
    ((m.step config e).phase.isPostponed = true →
      1 ≤ (m.step config e).state.postponed_count) := by
  obtain ⟨phase, st⟩ := m
  cases e with
  | reset =>
    simp [PomodoroMachine.step, PomodoroMachine.initial, PomodoroPhase.isPostponed]
  | timerEnd =>
    cases phase with
    | interval =>
      by_cases hmaj : (st.round % config.intervals == 0) = true <;>
        simp_all [PomodoroMachine.step, PomodoroPhase.isPostponed]
    | shortBreak => simpa [PomodoroMachine.step, PomodoroPhase.isPostponed] using h1
    | longBreak => simpa [PomodoroMachine.step, PomodoroPhase.isPostponed] using h1
    | postponedShortBreak =>
      simp_all [PomodoroMachine.step, PomodoroPhase.isPostponed]
    | postponedLongBreak =>
      simp_all [PomodoroMachine.step, PomodoroPhase.isPostponed]
  | postponeBreak =>
    cases phase with
    | interval => exact ⟨h1, h2⟩
    | postponedShortBreak => exact ⟨h1, h2⟩
    | postponedLongBreak => exact ⟨h1, h2⟩
    | shortBreak =>
      by_cases hc : can_postpone config st = true
      · have hcc : 0 < config.postpone_limit ∧
            st.postponed_count < config.postpone_limit := by
          simpa [can_postpone] using hc
        simp [PomodoroMachine.step, hc, PomodoroPhase.isPostponed]
        omega
      · simp_all [PomodoroMachine.step, hc, PomodoroPhase.isPostponed]
    | longBreak =>
      by_cases hc : can_postpone config st = true
      · have hcc : 0 < config.postpone_limit ∧
            st.postponed_count < config.postpone_limit := by
          simpa [can_postpone] using hc
        simp [PomodoroMachine.step, hc, PomodoroPhase.isPostponed]
        omega
      · simp_all [PomodoroMachine.step, hc, PomodoroPhase.isPostponed]

/-- The invariant holds in every state reachable from the initial one. -/
theorem pomodoroMachine_run_invariant (config : PomodoroTimerConfig)
    (events : List PomodoroEvent) :
    (PomodoroMachine.run config events).state.postponed_count ≤ config.postpone_limit ∧
    ((PomodoroMachine.run config events).phase.isPostponed = true →
      1 ≤ (PomodoroMachine.run config events).state.postponed_count) := by
  suffices h : ∀ (l : List PomodoroEvent) (m : PomodoroMachine),
      m.state.postponed_count ≤ config.postpone_limit →
      (m.phase.isPostponed = true → 1 ≤ m.state.postponed_count) →
      (l.foldl (fun m e => m.step config e) m).state.postponed_count ≤
          config.postpone_limit ∧
        ((l.foldl (fun m e => m.step config e) m).phase.isPostponed = true →
          1 ≤ (l.foldl (fun m e => m.step config e) m).state.postponed_count) by
    exact h events PomodoroMachine.initial (by simp [PomodoroMachine.initial])
      (by simp [PomodoroMachine.initial, PomodoroPhase.isPostponed])
  intro l
  induction l with
  | nil => intro m hm1 hm2; exact ⟨hm1, hm2⟩
  | cons e rest ih =>
    intro m hm1 hm2
    have := pomodoroMachine_step_invariant config m e hm1 hm2
    exact ih (m.step config e) this.1 this.2

/-- C1, amended: from the initial state, `round` starts at 1 and
`postponed_count` at 0; one step changes `round` only to `round + 1` on a
Break→Interval transition (and to 1 on an explicit `Reset`), every
Interval→Break transition zeroes `postponed_count`, every accepted
postponement increments it by exactly one from a value strictly below the
postpone limit while leaving `round` unchanged — and consequently, on any
reachable state, `1 ≤ postponed_count ≤ postpone_limit` (not strictly
below the limit) whenever a postponement is active. -/
theorem c1_round_and_postpone_invariants (config : PomodoroTimerConfig)
    (events : List PomodoroEvent) (m : PomodoroMachine) (e : PomodoroEvent) :
    (PomodoroMachine.initial.state.round = 1 ∧
      PomodoroMachine.initial.state.postponed_count = 0) ∧
    ((m.step config .reset).state.round = 1 ∧
      (m.step config .reset).state.postponed_count = 0) ∧
    (e ≠ .reset →
      (m.step config e).state.round = m.state.round ∨
      ((m.step config e).state.round = m.state.round + 1 ∧
        m.phase.isBreak = true ∧ (m.step config e).phase = .interval)) ∧
    (m.phase = .interval → (m.step config e).phase.isBreak = true →
      (m.step config e).state.postponed_count = 0) ∧
    (e = .postponeBreak → m.phase.isPostponed = false →
      (m.step config e).phase.isPostponed = true →
      (m.step config e).state.postponed_count = m.state.postponed_count + 1 ∧
      (m.step config e).state.round = m.state.round ∧
      m.state.postponed_count < config.postpone_limit) ∧
    ((PomodoroMachine.run config events).state.postponed_count ≤ config.postpone_limit ∧
      ((PomodoroMachine.run config events).phase.isPostponed = true →
        1 ≤ (PomodoroMachine.run config events).state.postponed_count)) := by
  obtain ⟨phase, st⟩ := m
  refine ⟨⟨rfl, rfl⟩, ⟨rfl, rfl⟩, ?_, ?_, ?_, pomodoroMachine_run_invariant config events⟩
  · intro he
    cases e <;> cases phase <;>
      simp_all [PomodoroMachine.step, PomodoroMachine.initial, PomodoroPhase.isBreak] <;>
      (try split) <;> simp_all
  · intro hph hbr
    cases e <;> cases phase <;>
      simp_all [PomodoroMachine.step, PomodoroMachine.initial, PomodoroPhase.isBreak]
  · intro he hnp hp
    subst he
    cases phase with
    | interval => simp [PomodoroMachine.step, PomodoroPhase.isPostponed] at hp
    | postponedShortBreak => simp [PomodoroPhase.isPostponed] at hnp
    | postponedLongBreak => simp [PomodoroPhase.isPostponed] at hnp
    | shortBreak =>
      by_cases hc : can_postpone config st = true
      · have hcc : 0 < config.postpone_limit ∧
            st.postponed_count < config.postpone_limit := by
          simpa [can_postpone] using hc
        simp [PomodoroMachine.step, hc]
        omega
      · simp [PomodoroMachine.step, hc, PomodoroPhase.isPostponed] at hp
    | longBreak =>
      by_cases hc : can_postpone config st = true
      · have hcc : 0 < config.postpone_limit ∧
            st.postponed_count < config.postpone_limit := by
          simpa [can_postpone] using hc
        simp [PomodoroMachine.step, hc]
        omega
      · simp [PomodoroMachine.step, hc, PomodoroPhase.isPostponed] at hp

/-- Witness for `c1_round_and_postpone_invariants`: after one interval
end under the default configuration the machine sits in a break with
`round = 1` and `postponed_count = 0` within the invariant's bounds. -/
theorem c1_invariants_witness :
    (PomodoroEvent.timerEnd ≠ PomodoroEvent.reset) ∧
    ((PomodoroMachine.run PomodoroTimerConfig.default
        [PomodoroEvent.timerEnd]).state.postponed_count ≤
      PomodoroTimerConfig.default.postpone_limit) :=
  ⟨by decide,
    (c1_round_and_postpone_invariants PomodoroTimerConfig.default
      [PomodoroEvent.timerEnd] PomodoroMachine.initial
      PomodoroEvent.timerEnd).2.2.2.2.2.1⟩

/-- C7, counterexample: in the revision under `src/timer/src/timer.rs`
the tick callback is handed the very same `ViewState` value whether it is
invoked from the `Paused` loop or from the `Running` loop — the emitted
view carries no `is_paused` field and does not reflect whether the timer
is currently paused. -/
theorem c7_no_paused_field_counterexample :
    pausedTickView ⟨false, 1⟩ [50, 53, 58, 48, 48] =
      runningTickView ⟨false, 1⟩ [50, 53, 58, 48, 48] ∧
    (breakTickView ⟨1, 0⟩ [48]).postpone_count = 0 := by
  exact ⟨rfl, rfl⟩

/-- C7, amended: only the refactored revision's `ViewState`
(`src/timer/src/pomodoro_timer/state.rs`) carries `is_paused`; its break
tick handler forwards the timer status's paused flag into that field,
alongside `is_break`, `is_postponed`, `postpone_count`, `round` and the
formatted time string.  The monolithic revision's views are identical for
paused and running ticks. -/
theorem c7_view_paused_field (st : PomodoroTimerState) (status : TimerStatus)
    (sh : TimerStateData) (time : List Nat) :
    (shortBreakTickViewR st status).is_paused = status.is_paused ∧
    (shortBreakTickViewR st status).is_break = true ∧
    (shortBreakTickViewR st status).is_postponed = false ∧
    (shortBreakTickViewR st status).postpone_count = st.postponed_count ∧
    (shortBreakTickViewR st status).round = st.round ∧
    (shortBreakTickViewR st status).time = status.current_time ∧
    pausedTickView sh time = runningTickView sh time := by
  exact ⟨rfl, rfl, rfl, rfl, rfl, rfl, rfl⟩

/-- On an environment where every connection attempt fails, the connect
loop of `ClientConnectionTask::spawn` never breaks out, whatever the
iteration bound. -/
theorem clientConnectLoop_all_fail_no_exit (fuel tries : Nat) :
    (clientConnectLoop (fun _ => false) fuel tries).1 = none := by
  induction fuel generalizing tries with
  | zero => rfl
  | succ fuel ih => simp [clientConnectLoop, ih]

/-- On an all-fail environment the fatal "could not connect" event is
sent exactly once, at the start of the fourth iteration, and the loop
keeps retrying afterwards. -/
theorem clientConnectLoop_all_fail_fatal (fuel tries : Nat) :
    (clientConnectLoop (fun _ => false) fuel tries).2 =
      if tries < 4 ∧ 4 ≤ tries + fuel then 1 else 0 := by
  induction fuel generalizing tries with
  | zero =>
    simp only [clientConnectLoop, Nat.add_zero]
    split_ifs <;> omega
  | succ fuel ih =>
    show (if tries + 1 = 4 then 1 else 0) +
        (clientConnectLoop (fun _ => false) fuel (tries + 1)).2 = _
    rw [ih]
    split_ifs <;> omega

theorem readBE_beBytes (k n : Nat) (h : n < 256 ^ k) (rest : List Nat) :
    readBE k (beBytes k n ++ rest) = some (n, rest) := by
  induction k generalizing n with
  | zero =>
    have hn : n = 0 := by simpa using h
    subst hn
    rfl
  | succ k ih =>
    have hm : n % 256 ^ k < 256 ^ k :=
      Nat.mod_lt _ (Nat.pos_pow_of_pos k (by norm_num))
    have e : readBE (k + 1) (beBytes (k + 1) n ++ rest) =
        (readBE k (beBytes k (n % 256 ^ k) ++ rest)).map
          (fun p => (n / 256 ^ k * 256 ^ k + p.1, p.2)) := rfl
    rw [e, ih _ hm]
    simp only [Option.map_some']
    rw [Nat.mul_comm, Nat.div_add_mod]

theorem parseUInt_msgpackUInt (n : Nat) (bs rest : List Nat)
    (h : msgpackUInt n = some bs) :
    parseUInt (bs ++ rest) = some (n, rest) := by
  unfold msgpackUInt at h
  split_ifs at h with h1 h2 h3 h4 h5 <;> cases h
  · simp [parseUInt, h1]
  · have : ¬ (204 : Nat) < 128 := by norm_num
    simp [parseUInt]
  · have e : parseUInt ((205 :: beBytes 2 n) ++ rest) =
        readBE 2 (beBytes 2 n ++ rest) := by
      norm_num [parseUInt]
    rw [e, readBE_beBytes 2 n (by norm_num; omega) rest]
  · have e : parseUInt ((206 :: beBytes 4 n) ++ rest) =
        readBE 4 (beBytes 4 n ++ rest) := by
      norm_num [parseUInt]
    rw [e, readBE_beBytes 4 n (by norm_num; omega) rest]
  · have e : parseUInt ((207 :: beBytes 8 n) ++ rest) =
        readBE 8 (beBytes 8 n ++ rest) := by
      norm_num [parseUInt]
    rw [e, readBE_beBytes 8 n (by norm_num; omega) rest]

theorem parseBool_msgpackBool (b : Bool) (rest : List Nat) :
    parseBool (msgpackBool b ++ rest) = some (b, rest) := by
  cases b <;> rfl

theorem readN_append (bs rest : List Nat) :
    readN bs.length (bs ++ rest) = some (bs, rest) := by
  have hle : bs.length ≤ (bs ++ rest).length := by
    simp
  simp [readN, hle, List.take_left, List.drop_left]

theorem parseStr_msgpackStr (bs out rest : List Nat)
    (h : msgpackStr bs = some out) :
    parseStr (out ++ rest) = some (bs, rest) := by
  unfold msgpackStr at h
  split_ifs at h with h1 h2 h3 h4 <;> cases h
  · have hcond : 160 ≤ 160 + bs.length ∧ 160 + bs.length ≤ 191 := by omega
    have e : parseStr (((160 + bs.length) :: bs) ++ rest) =
        if 160 ≤ 160 + bs.length ∧ 160 + bs.length ≤ 191 then
          readN (160 + bs.length - 160) (bs ++ rest)
        else if 160 + bs.length = 217 then
          match bs ++ rest with
          | l :: r => readN l r
          | [] => none
        else if 160 + bs.length = 218 then
          (readBE 2 (bs ++ rest)).bind fun p => readN p.1 p.2
        else if 160 + bs.length = 219 then
          (readBE 4 (bs ++ rest)).bind fun p => readN p.1 p.2
        else none := rfl
    rw [e, if_pos hcond]
    have e2 : 160 + bs.length - 160 = bs.length := by omega
    rw [e2, readN_append]
  · have e : parseStr ((217 :: bs.length :: bs) ++ rest) =
        readN bs.length (bs ++ rest) := by
      have hcond : ¬ (160 ≤ (217 : Nat) ∧ (217 : Nat) ≤ 191) := by norm_num
      simp only [List.cons_append, parseStr]
      rw [if_neg hcond]
      simp
    rw [e, readN_append]
  · have e : parseStr ((218 :: beBytes 2 bs.length ++ bs) ++ rest) =
        (readBE 2 (beBytes 2 bs.length ++ (bs ++ rest))).bind
          (fun p => readN p.1 p.2) := by
      have hcond : ¬ (160 ≤ (218 : Nat) ∧ (218 : Nat) ≤ 191) := by norm_num
      simp only [List.cons_append, List.append_assoc, parseStr]
      rw [if_neg hcond, if_neg (by norm_num)]
      simp
    rw [e, readBE_beBytes 2 bs.length (by norm_num; omega) (bs ++ rest)]
    simpa using readN_append bs rest
  · have e : parseStr ((219 :: beBytes 4 bs.length ++ bs) ++ rest) =
        (readBE 4 (beBytes 4 bs.length ++ (bs ++ rest))).bind
          (fun p => readN p.1 p.2) := by
      have hcond : ¬ (160 ≤ (219 : Nat) ∧ (219 : Nat) ≤ 191) := by norm_num
      simp only [List.cons_append, List.append_assoc, parseStr]
      rw [if_neg hcond, if_neg (by norm_num), if_neg (by norm_num)]
      simp
    rw [e, readBE_beBytes 4 bs.length (by norm_num; omega) (bs ++ rest)]
    simpa using readN_append bs rest

theorem parseViewState_encodeViewState (v : ViewState) (p rest : List Nat)
    (h : encodeViewState v = some p) :
    parseViewState (p ++ rest) = some (v, rest) := by
  unfold encodeViewState at h
  rcases hc : msgpackUInt v.postpone_count with _ | c <;> rw [hc] at h
  · cases h
  rcases hr : msgpackUInt v.round with _ | r <;> rw [hr] at h
  · cases h
  rcases ht : msgpackStr v.time with _ | t <;> rw [ht] at h
  · cases h
  cases h
  simp only [List.cons_append, List.append_assoc, parseViewState]
  rw [parseBool_msgpackBool]
  simp only [Option.some_bind]
  rw [parseBool_msgpackBool]
  simp only [Option.some_bind]
  rw [parseUInt_msgpackUInt _ _ _ hc]
  simp only [Option.some_bind]
  rw [parseUInt_msgpackUInt _ _ _ hr]
  simp only [Option.some_bind]
  rw [parseStr_msgpackStr _ _ _ ht]
  simp only [Option.some_bind]

theorem parseClientToServerMsg_encode (m : ClientToServerMsg) (p : List Nat)
    (h : encodeClientToServerMsg m = some p) :
    parseClientToServerMsg p = some m := by
  cases m <;> (injection h with h; subst h; decide)

theorem encodeServerToClientMsg_timer (v : ViewState) :
    encodeServerToClientMsg (ServerToClientMsg.timer v) =
      (encodeViewState v).bind (fun pv => some (129 :: 0 :: pv)) := by
  show (match encodeViewState v with
    | some pv => some (129 :: 0 :: pv)
    | none => none) = (encodeViewState v).bind (fun pv => some (129 :: 0 :: pv))
  cases encodeViewState v <;> rfl

theorem parseServerToClientMsg_encode (m : ServerToClientMsg) (p : List Nat)
    (h : encodeServerToClientMsg m = some p) :
    parseServerToClientMsg p = some m := by
  cases m with
  | quit => injection h with h; subst h; decide
  | timer v =>
    rw [encodeServerToClientMsg_timer] at h
    rcases hv : encodeViewState v with _ | pv <;> rw [hv] at h
    · cases h
    · simp only [Option.some_bind] at h
      injection h with h
      subst h
      have hp := parseViewState_encodeViewState v pv [] hv
      rw [List.append_nil] at hp
      simp [parseServerToClientMsg, hp]

/-- Composition: when the encoder produces a payload of at most 1024
bytes whose decode recovers the message, `recv_ipc_message` applied to
the byte stream written by `send_ipc_message` returns the message. -/
theorem recv_send_roundtrip {α : Type} (enc : α → Option (List Nat))
    (dec : List Nat → Option α) (m : α) (p : List Nat)
    (henc : enc m = some p) (hdec : dec p = some m) (hlen : p.length ≤ 1024) :
    recv_ipc_message dec ((send_ipc_message enc m).getD []) = RecvResult.ok m := by
  have hfit : p.length < 4294967296 := by omega
  unfold send_ipc_message
  rw [henc]
  show recv_ipc_message dec
    ((if p.length < 4294967296 then some (leBytes4 p.length ++ p) else none).getD []) =
    RecvResult.ok m
  rw [if_pos hfit, Option.getD_some]
  unfold leBytes4
  simp only [List.cons_append, List.nil_append, recv_ipc_message]
  have hL : leDecode4 (p.length % 256) (p.length / 256 % 256)
      (p.length / 65536 % 256) (p.length / 16777216 % 256) = p.length := by
    unfold leDecode4
    omega
  rw [hL, if_neg (by omega), if_neg (by omega), List.take_length, hdec]

/-- Composition: whenever the encoded payload is longer than 1024 bytes
but still fits a `u32` length, `send_ipc_message` writes the frame and
`recv_ipc_message` panics on it. -/
theorem recv_send_panics {α : Type} (enc : α → Option (List Nat))
    (dec : List Nat → Option α) (m : α) (p : List Nat)
    (henc : enc m = some p) (hbig : 1024 < p.length)
    (hfit : p.length < 4294967296) :
    recv_ipc_message dec ((send_ipc_message enc m).getD []) = RecvResult.panicked := by
  unfold send_ipc_message
  rw [henc]
  show recv_ipc_message dec
    ((if p.length < 4294967296 then some (leBytes4 p.length ++ p) else none).getD []) =
    RecvResult.panicked
  rw [if_pos hfit, Option.getD_some]
  unfold leBytes4
  simp only [List.cons_append, List.nil_append, recv_ipc_message]
  have hL : leDecode4 (p.length % 256) (p.length / 256 % 256)
      (p.length / 65536 % 256) (p.length / 16777216 % 256) = p.length := by
    unfold leDecode4
    omega
  rw [hL, if_pos (by omega)]

/-- `send_ipc_message` writes the length-prefixed frame for every
message whose encoded payload length fits in a `u32` — there is no check
against the receiver's 1024-byte buffer bound. -/
theorem send_ipc_message_writes {α : Type} (enc : α → Option (List Nat))
    (m : α) (p : List Nat) (henc : enc m = some p)
    (hfit : p.length < 4294967296) :
    send_ipc_message enc m = some (leBytes4 p.length ++ p) := by
  unfold send_ipc_message
  rw [henc]
  show (if p.length < 4294967296 then some (leBytes4 p.length ++ p) else none) =
    some (leBytes4 p.length ++ p)
  rw [if_pos hfit]

/-- `encodeViewState` written out, given the encodings of its numeric
and string fields. -/
theorem encodeViewState_eq (v : ViewState) (c r t : List Nat)
    (hc : msgpackUInt v.postpone_count = some c)
    (hr : msgpackUInt v.round = some r) (ht : msgpackStr v.time = some t) :
    encodeViewState v =
      some (149 :: msgpackBool v.is_break ++ msgpackBool v.is_postponed ++ c ++ r ++ t) := by
  unfold encodeViewState
  rw [hc, hr, ht]

/-- The view of a `Timer` message whose formatted time string is 1025
bytes long; the resulting MessagePack payload is 1035 bytes. -/
def c5BigView : ViewState :=
  { is_break := true, is_postponed := true, postpone_count := 3
    round := 2, time := List.replicate 1025 97 }

def c5BigMsg : ServerToClientMsg := .timer c5BigView

/-- The MessagePack payload of `c5BigMsg`. -/
def c5BigPayload : List Nat :=
  129 :: 0 :: 149 :: 195 :: 195 :: 3 :: 2 :: 218 :: 4 :: 1 :: List.replicate 1025 97

/-- C5, counterexample: for `c5BigMsg` the encoder succeeds and
`send_ipc_message` writes the frame, but `recv_ipc_message` applied to
that byte stream panics on the oversized length prefix instead of
returning a message equal to `c5BigMsg` — the codec does not round-trip
for every value of every variant. -/
theorem c5_oversized_counterexample :
    (send_ipc_message encodeServerToClientMsg c5BigMsg).isSome = true ∧
    recv_ipc_message parseServerToClientMsg
      ((send_ipc_message encodeServerToClientMsg c5BigMsg).getD []) =
      RecvResult.panicked ∧
    recv_ipc_message parseServerToClientMsg
      ((send_ipc_message encodeServerToClientMsg c5BigMsg).getD []) ≠
      RecvResult.ok c5BigMsg := by
  have hstr : msgpackStr (List.replicate 1025 97) =
      some (218 :: 4 :: 1 :: List.replicate 1025 97) := by
    unfold msgpackStr
    rw [List.length_replicate]
    rw [if_neg (by norm_num), if_neg (by norm_num), if_pos (by norm_num)]
    rw [show beBytes 2 1025 = [4, 1] from by decide]
    simp only [List.cons_append, List.nil_append]
  have hview : encodeViewState c5BigView =
      some (149 :: 195 :: 195 :: 3 :: 2 :: 218 :: 4 :: 1 :: List.replicate 1025 97) := by
    rw [encodeViewState_eq c5BigView [3] [2]
      (218 :: 4 :: 1 :: List.replicate 1025 97) (by decide) (by decide) hstr]
    rw [show c5BigView.is_break = true from rfl,
      show c5BigView.is_postponed = true from rfl,
      show msgpackBool true = [195] from rfl]
    simp only [List.cons_append, List.nil_append]
  have henc : encodeServerToClientMsg c5BigMsg = some c5BigPayload := by
    show encodeServerToClientMsg (ServerToClientMsg.timer c5BigView) = some c5BigPayload
    rw [encodeServerToClientMsg_timer, hview]
    rfl
  have hlen : c5BigPayload.length = 1035 := by
    show (129 :: 0 :: 149 :: 195 :: 195 :: 3 :: 2 :: 218 :: 4 :: 1 ::
      List.replicate 1025 97).length = 1035
    simp only [List.length_cons, List.length_replicate]
  have hsend := send_ipc_message_writes encodeServerToClientMsg c5BigMsg
    c5BigPayload henc (by omega)
  have hpanic := recv_send_panics encodeServerToClientMsg parseServerToClientMsg
    c5BigMsg c5BigPayload henc (by omega) (by omega)
  refine ⟨?_, hpanic, ?_⟩
  · rw [hsend]; rfl
  · rw [hpanic]; intro hcontra; cases hcontra

/-- C5, amended: the wire codec round-trips for every message of either
direction whose MessagePack payload fits the receiver's fixed 1024-byte
buffer: `recv_ipc_message` applied to the stream written by
`send_ipc_message` returns `Ok` of an equal message. -/
theorem c5_roundtrip_bounded (m1 : ClientToServerMsg) (m2 : ServerToClientMsg)
    (p1 p2 : List Nat)
    (h1 : encodeClientToServerMsg m1 = some p1) (hl1 : p1.length ≤ 1024)
    (h2 : encodeServerToClientMsg m2 = some p2) (hl2 : p2.length ≤ 1024) :
    recv_ipc_message parseClientToServerMsg
      ((send_ipc_message encodeClientToServerMsg m1).getD []) = RecvResult.ok m1 ∧
    recv_ipc_message parseServerToClientMsg
      ((send_ipc_message encodeServerToClientMsg m2).getD []) = RecvResult.ok m2 :=
  ⟨recv_send_roundtrip _ _ _ _ h1 (parseClientToServerMsg_encode m1 p1 h1) hl1,
    recv_send_roundtrip _ _ _ _ h2 (parseServerToClientMsg_encode m2 p2 h2) hl2⟩

/-- A small `Timer` message and its payload, used as witness input. -/
def c5SmallMsg : ServerToClientMsg :=
  .timer { is_break := false, is_postponed := false, postpone_count := 0
           round := 1, time := [48, 49] }

/-- Witness for `c5_roundtrip_bounded`: a concrete `PlayPause` and a
concrete small `Timer` message both round-trip. -/
theorem c5_roundtrip_witness :
    (encodeClientToServerMsg ClientToServerMsg.playPause = some [2] ∧
      ([2] : List Nat).length ≤ 1024 ∧
      encodeServerToClientMsg c5SmallMsg =
        some [129, 0, 149, 194, 194, 0, 1, 162, 48, 49] ∧
      ([129, 0, 149, 194, 194, 0, 1, 162, 48, 49] : List Nat).length ≤ 1024) ∧
    (recv_ipc_message parseClientToServerMsg
      ((send_ipc_message encodeClientToServerMsg ClientToServerMsg.playPause).getD []) =
        RecvResult.ok ClientToServerMsg.playPause ∧
      recv_ipc_message parseServerToClientMsg
        ((send_ipc_message encodeServerToClientMsg c5SmallMsg).getD []) =
        RecvResult.ok c5SmallMsg) :=
  ⟨⟨by decide, by decide, by decide, by decide⟩,
    c5_roundtrip_bounded ClientToServerMsg.playPause c5SmallMsg
      [2] [129, 0, 149, 194, 194, 0, 1, 162, 48, 49]
      (by decide) (by decide) (by decide) (by decide)⟩

/-- The view of a `Timer` message whose MessagePack payload is exactly
1025 bytes. -/
def c6BigView : ViewState :=
  { is_break := false, is_postponed := false, postpone_count := 0
    round := 1, time := List.replicate 1015 98 }

def c6BigMsg : ServerToClientMsg := .timer c6BigView

/-- The MessagePack payload of `c6BigMsg` (length 1025). -/
def c6BigPayload : List Nat :=
  129 :: 0 :: 149 :: 194 :: 194 :: 0 :: 1 :: 218 :: 3 :: 247 :: List.replicate 1015 98

/-- `c6BigMsg` encodes to the 1025-byte payload `c6BigPayload`. -/
theorem c6BigPayload_spec :
    encodeServerToClientMsg c6BigMsg = some c6BigPayload ∧
    c6BigPayload.length = 1025 := by
  have hstr : msgpackStr (List.replicate 1015 98) =
      some (218 :: 3 :: 247 :: List.replicate 1015 98) := by
    unfold msgpackStr
    rw [List.length_replicate]
    rw [if_neg (by norm_num), if_neg (by norm_num), if_pos (by norm_num)]
    rw [show beBytes 2 1015 = [3, 247] from by decide]
    simp only [List.cons_append, List.nil_append]
  have hview : encodeViewState c6BigView =
      some (149 :: 194 :: 194 :: 0 :: 1 :: 218 :: 3 :: 247 :: List.replicate 1015 98) := by
    rw [encodeViewState_eq c6BigView [0] [1]
      (218 :: 3 :: 247 :: List.replicate 1015 98) (by decide) (by decide) hstr]
    rw [show c6BigView.is_break = false from rfl,
      show c6BigView.is_postponed = false from rfl,
      show msgpackBool false = [194] from rfl]
    simp only [List.cons_append, List.nil_append]
  have henc : encodeServerToClientMsg c6BigMsg = some c6BigPayload := by
    show encodeServerToClientMsg (ServerToClientMsg.timer c6BigView) = some c6BigPayload
    rw [encodeServerToClientMsg_timer, hview]
    rfl
  have hlen : c6BigPayload.length = 1025 := by
    show (129 :: 0 :: 149 :: 194 :: 194 :: 0 :: 1 :: 218 :: 3 :: 247 ::
      List.replicate 1015 98).length = 1025
    simp only [List.length_cons, List.length_replicate]
  exact ⟨henc, hlen⟩

/-- C6, counterexample: `c6BigMsg` has a 1025-byte MessagePack payload,
yet `send_ipc_message` encodes it and writes the frame instead of
failing — there is no 1024-byte guard at encode time (only the `u32`
length cast can fail). -/
theorem c6_encode_cap_counterexample :
    encodeServerToClientMsg c6BigMsg = some c6BigPayload ∧
    c6BigPayload.length = 1025 ∧
    send_ipc_message encodeServerToClientMsg c6BigMsg =
      some (leBytes4 c6BigPayload.length ++ c6BigPayload) := by
  obtain ⟨henc, hlen⟩ := c6BigPayload_spec
  exact ⟨henc, hlen,
    send_ipc_message_writes encodeServerToClientMsg c6BigMsg c6BigPayload henc
      (by omega)⟩

/-- C6, amended: `send_ipc_message` fails only when the serialized
length exceeds `u32::MAX`; any payload whose length fits a `u32` —
including payloads longer than the receiver's 1024-byte cap — is framed
and written. -/
theorem c6_send_unguarded {α : Type} (enc : α → Option (List Nat))
    (m : α) (p : List Nat) (henc : enc m = some p)
    (hfit : p.length < 4294967296) :
    send_ipc_message enc m = some (leBytes4 p.length ++ p) :=
  send_ipc_message_writes enc m p henc hfit

/-- Witness for `c6_send_unguarded`: the 1025-byte payload of `c6BigMsg`
is written unguarded. -/
theorem c6_send_unguarded_witness :
    encodeServerToClientMsg c6BigMsg = some c6BigPayload ∧
    c6BigPayload.length < 4294967296 ∧
    send_ipc_message encodeServerToClientMsg c6BigMsg =
      some (leBytes4 c6BigPayload.length ++ c6BigPayload) := by
  obtain ⟨henc, hlen⟩ := c6BigPayload_spec
  have hfit : c6BigPayload.length < 4294967296 := by omega
  exact ⟨henc, hfit,
    c6_send_unguarded encodeServerToClientMsg c6BigMsg c6BigPayload henc hfit⟩

/-- C10: `recv_ipc_message` is panic-free exactly for bounded length
prefixes.  For every frame whose 4-byte little-endian prefix decodes to
`L ≤ 1024` the function returns a value — never the panic — while every
frame whose prefix decodes to `L > 1024` makes it slice the fixed
1024-byte buffer out of bounds (a panic), not an error return; a stream
shorter than 4 bytes yields the length-read error. -/
theorem c10_recv_panic_boundary {α : Type} (dec : List Nat → Option α)
    (b0 b1 b2 b3 : Nat) (rest : List Nat) (s : List Nat) (hs : s.length < 4) :
    (leDecode4 b0 b1 b2 b3 ≤ 1024 →
      recv_ipc_message dec (b0 :: b1 :: b2 :: b3 :: rest) ≠ RecvResult.panicked) ∧
    (1024 < leDecode4 b0 b1 b2 b3 →
      recv_ipc_message dec (b0 :: b1 :: b2 :: b3 :: rest) = RecvResult.panicked) ∧
    recv_ipc_message dec s = RecvResult.ioError := by
  refine ⟨?_, ?_, ?_⟩
  · intro h
    show (if 1024 < leDecode4 b0 b1 b2 b3 then RecvResult.panicked
      else if rest.length < leDecode4 b0 b1 b2 b3 then RecvResult.ioError
      else match dec (rest.take (leDecode4 b0 b1 b2 b3)) with
        | some msg => RecvResult.ok msg
        | none => RecvResult.decodeError) ≠ RecvResult.panicked
    rw [if_neg (by omega)]
    split
    · simp
    · split <;> simp
  · intro h
    show (if 1024 < leDecode4 b0 b1 b2 b3 then RecvResult.panicked
      else if rest.length < leDecode4 b0 b1 b2 b3 then RecvResult.ioError
      else match dec (rest.take (leDecode4 b0 b1 b2 b3)) with
        | some msg => RecvResult.ok msg
        | none => RecvResult.decodeError) = RecvResult.panicked
    rw [if_pos h]
  · rcases s with _ | ⟨a, _ | ⟨b, _ | ⟨c, _ | ⟨d, t⟩⟩⟩⟩
    · rfl
    · rfl
    · rfl
    · rfl
    · exfalso
      simp only [List.length_cons] at hs
      omega

/-- Witness for `c10_recv_panic_boundary`: a zero-length frame is
handled without panic, a frame with length prefix 1025 panics. -/
theorem c10_recv_panic_witness :
    (leDecode4 0 0 0 0 ≤ 1024 ∧
      recv_ipc_message parseClientToServerMsg [0, 0, 0, 0] ≠ RecvResult.panicked) ∧
    (1024 < leDecode4 1 4 0 0 ∧
      recv_ipc_message parseClientToServerMsg [1, 4, 0, 0] = RecvResult.panicked) :=
  ⟨⟨by decide,
      (c10_recv_panic_boundary parseClientToServerMsg 0 0 0 0 [] [] (by decide)).1
        (by decide)⟩,
    ⟨by decide,
      (c10_recv_panic_boundary parseClientToServerMsg 1 4 0 0 [] [] (by decide)).2.1
        (by decide)⟩⟩

/-- C3: over every tick trace, the natural-end callback
(`on_interval_end`, invoked by `Timer::next` exactly when its
`is_timer_end` argument is true) runs exactly once if the run ends with
the `Running` loop exhausting naturally (`self.next(true)`), and zero
times for every run terminated by a `Skip`/`End` action and for every
exit from the `Paused` loop (`self.next(false)` / `self.reset()`), in
either starting mode. -/
theorem c3_natural_end_callback_once (mode : TimerMode) (now : Nat) (ticks : List Tick) :
    (timerRun mode now ticks).2 =
      if (timerRun mode now ticks).1 = TimerExit.naturalEnd then 1 else 0 := by
  induction ticks generalizing mode now with
  | nil =>
    cases mode with
    | running s =>
      by_cases h : s.target_time > now <;> simp [timerRun, h]
    | paused s => simp [timerRun]
  | cons t rest ih =>
    obtain ⟨a, dt⟩ := t
    cases mode with
    | running s =>
      by_cases h : s.target_time > now
      · cases a with
        | none => simpa [timerRun, h] using ih (.running s) (now + dt)
        | some a' =>
          cases a' <;>
            simp [timerRun, h, ih (.running s) (now + dt),
              ih (.paused (s.pause (now + dt))) (now + dt)]
      · simp [timerRun, h]
    | paused s =>
      cases a with
      | none => simpa [timerRun] using ih (.paused s) (now + dt)
      | some a' =>
        cases a' <;>
          simp [timerRun, ih (.paused s) (now + dt),
            ih (.running (s.unpause (now + dt))) (now + dt)]

/-- C8, counterexample: two sessions are attached when the shutdown is
published; the first one scheduled sends its client one
`ServerToClientMsg::Quit` and then calls `process::exit(0)`, so the other
session delivers no `Quit` at all — not every attached session receives
exactly one. -/
theorem c8_missing_quit_counterexample :
    shutdownDeliveries [0, 1] = [(0, 1), (1, 0)] ∧
    ¬ (∀ p ∈ shutdownDeliveries [0, 1], p.2 = 1) := by
  decide

/-- C8, amended: when a shutdown is published, the first session to
process the signal sends exactly one `Quit` to its own client and then
terminates the entire server process, so across all attached sessions
exactly `min 1 n` `Quit` messages are delivered and no session ever
receives more than one; and only a `ClientToServerMsg::Quit` — never a
`Detach` (or any other message) — publishes the shutdown signal. -/
theorem c8_shutdown_fanout (order : List Nat) (m : ClientToServerMsg) :
    ((shutdownDeliveries order).map Prod.snd).sum = min 1 order.length ∧
    (∀ p ∈ shutdownDeliveries order, p.2 ≤ 1) ∧
    (handle_client_to_server_msg m = ClientMsgEffect.publishShutdown ↔
      m = ClientToServerMsg.quit) ∧
    (handle_connection_synchronization .quit).quit_messages_sent = 1 ∧
    (handle_connection_synchronization .quit).exits_process = true := by
  refine ⟨?_, ?_, ?_, rfl, rfl⟩
  · have hz : ∀ l : List Nat,
        ((l.map (fun t => (t, (0 : Nat)))).map Prod.snd).sum = 0 := by
      intro l
      induction l with
      | nil => rfl
      | cons a l ih => simpa using ih
    cases order with
    | nil => rfl
    | cons s rest =>
      have e1 : shutdownDeliveries (s :: rest) =
          (s, 1) :: rest.map (fun t => (t, 0)) := rfl
      rw [e1, List.map_cons, List.sum_cons, hz rest]
      simp [List.length_cons]
  · cases order with
    | nil => simp [shutdownDeliveries]
    | cons s rest =>
      intro p hp
      simp [shutdownDeliveries, handle_connection_synchronization] at hp
      rcases hp with h | h
      · simp [h]
      · obtain ⟨t, _, h⟩ := h
        simp [← h]
  · cases m <;> simp [handle_client_to_server_msg]

/-- Witness for `c8_shutdown_fanout`: with one attached session exactly
one `Quit` is delivered, and a `Detach` does not publish shutdown. -/
theorem c8_shutdown_fanout_witness :
    ((shutdownDeliveries [7]).map Prod.snd).sum = min 1 [7].length ∧
    ¬ (handle_client_to_server_msg ClientToServerMsg.detach =
      ClientMsgEffect.publishShutdown) := by
  have h := c8_shutdown_fanout [7] ClientToServerMsg.detach
  exact ⟨h.1, fun hc => by simpa using h.2.2.1.mp hc⟩

/-- C9: the claim reads the source comment "will timeout after the third
attempt"; the code instead surfaces one fatal "could not connect" event
at the fourth attempt but never stops retrying — on an input where every
connection attempt fails, the connect loop runs forever (it has not
broken out after any number of iterations). -/
theorem c9_connect_loop_never_stops (fuel : Nat) :
    (clientConnectLoop (fun _ => false) fuel 0).1 = none ∧
    (clientConnectLoop (fun _ => false) fuel 0).2 = if 4 ≤ fuel then 1 else 0 := by
  refine ⟨clientConnectLoop_all_fail_no_exit fuel 0, ?_⟩
  rw [clientConnectLoop_all_fail_fatal fuel 0]
  split_ifs <;> omega

end Zentime
